import Mathlib

/-!
Verification of the department-based lead-routing core of the CRM-lead_route
repository.  The repository ships three UI source files (a form-button script,
a lead-history page script, and a Vue lead-history page); the routing engine
and history query service they call (`lead_routing.api.lead_transfer` and
`lead_routing.api.lead_history`) are not part of the shipped sources, so those
two components are modelled from the specification, while the UI-side logic
(form refresh guard, list filters, action badge/label/theme maps) is embedded
directly from the JavaScript/Vue sources.
-/

namespace LeadRouting

/-- A department pipeline stage (spec §3 `PipelineStage`). -/
structure PipelineStage where
  name : String
  sequence_order : Nat
  is_terminal : Bool
deriving DecidableEq, Repr

/-- The stage registry: the list of registered pipeline stages. -/
abbrev Registry := List PipelineStage

/-- Lead department status enum (spec §3 `department_status`). -/
inductive DeptStatus where
  | Working
  | Done
  | Rejected
deriving DecidableEq, Repr

/-- Routing history action enum (spec §3 `RoutingHistoryEntry.action`). -/
inductive Action where
  | Initial
  | Forward
  | Backward
  | Reject
  | ManagerOverride
deriving DecidableEq, Repr

/-- One immutable routing history record (spec §3 `RoutingHistoryEntry`). -/
structure RoutingHistoryEntry where
  lead_id : String
  department : String
  action : Action
  actor_user_id : String
  notes : String
  acted_at : Nat
deriving DecidableEq, Repr

/-- A CRM lead's routing fields (spec §3 `Lead`). -/
structure Lead where
  id : String
  lead_name : String
  current_department : Option String
  department_status : DeptStatus
  modified : Nat
deriving DecidableEq, Repr

/-- A lead together with its append-only routing history (spec §3: the lead
owns its ordered sequence of history entries). -/
structure LeadState where
  lead : Lead
  history : List RoutingHistoryEntry
deriving DecidableEq, Repr

/-- Error taxonomy of the routing core (spec §7). -/
inductive RouteError where
  | UnknownStage
  | LeadAlreadyCompleted
  | NoNextStage
  | NoPreviousStage
  | InvalidTarget
  | PermissionDenied
  | LeadNotFound
deriving DecidableEq, Repr

/-- Modelled from the spec: stage lookup of the Pipeline Stage Registry
(`lead_routing.api`, not shipped in the sources).  Finds the registered stage
with the given name. -/
def lookupStage (reg : Registry) (n : String) : Option PipelineStage :=
  reg.find? (fun s => s.name == n)

/-- The registered stages with sequence_order strictly greater than `k`. -/
def stagesAbove (reg : Registry) (k : Nat) : List PipelineStage :=
  reg.filter (fun t => decide (k < t.sequence_order))

/-- The registered stages with sequence_order strictly smaller than `k`. -/
def stagesBelow (reg : Registry) (k : Nat) : List PipelineStage :=
  reg.filter (fun t => decide (t.sequence_order < k))

/-- The stage of minimal sequence_order in a list, if any. -/
def minByOrder : List PipelineStage → Option PipelineStage
  | [] => none
  | s :: rest =>
    match minByOrder rest with
    | none => some s
    | some t => if s.sequence_order ≤ t.sequence_order then some s else some t

/-- The stage of maximal sequence_order in a list, if any. -/
def maxByOrder : List PipelineStage → Option PipelineStage
  | [] => none
  | s :: rest =>
    match maxByOrder rest with
    | none => some s
    | some t => if t.sequence_order ≤ s.sequence_order then some s else some t

/-- Modelled from the spec: `next_stage(current)` of the Pipeline Stage
Registry (spec §4.1, routing engine not shipped in the sources): the stage
with the next-higher sequence_order, or none if current is terminal or last. -/
def next_stage (reg : Registry) (current : String) : Option String :=
  match lookupStage reg current with
  | none => none
  | some s =>
    if s.is_terminal then none
    else (minByOrder (stagesAbove reg s.sequence_order)).map (fun t => t.name)

/-- Modelled from the spec: `previous_stage(current)` of the Pipeline Stage
Registry (spec §4.1, routing engine not shipped in the sources): the stage
with the next-lower sequence_order, or none if current is first. -/
def previous_stage (reg : Registry) (current : String) : Option String :=
  match lookupStage reg current with
  | none => none
  | some s => (maxByOrder (stagesBelow reg s.sequence_order)).map (fun t => t.name)

/-- Whether the lead is already on a terminal stage with status Done
(the `LeadAlreadyCompleted` precondition of every routing command,
spec §4.2). -/
def isCompleted (reg : Registry) (st : LeadState) : Bool :=
  match st.lead.current_department with
  | none => false
  | some d =>
    match lookupStage reg d with
    | none => false
    | some s => s.is_terminal && decide (st.lead.department_status = DeptStatus.Done)

/-- Result of `mark_department_done` (spec §4.2). -/
inductive MarkDoneResult where
  | completed
  | moved (dest : String)
deriving DecidableEq, Repr

/-- Modelled from the spec: the routing engine command
`lead_routing.api.lead_transfer.mark_department_done` (not shipped in the
sources).  Guarded by `LeadAlreadyCompleted`; on a terminal current stage it
sets status Done and reports completed; on a non-terminal stage with a next
stage it moves the lead forward, sets status Working and appends one Forward
history entry; on a non-terminal last stage it fails with `NoNextStage`. -/
def mark_department_done (reg : Registry) (st : LeadState) (actor : String)
    (now : Nat) : Except RouteError (LeadState × MarkDoneResult) :=
  if isCompleted reg st then .error .LeadAlreadyCompleted
  else
    match st.lead.current_department with
    | none => .error .LeadNotFound
    | some cur =>
      match lookupStage reg cur with
      | none => .error .UnknownStage
      | some s =>
        if s.is_terminal then
          .ok ({ st with lead := { st.lead with department_status := .Done } },
               .completed)
        else
          match next_stage reg cur with
          | none => .error .NoNextStage
          | some nxt =>
            .ok (⟨{ st.lead with current_department := some nxt,
                                 department_status := .Working },
                  st.history ++ [⟨st.lead.id, nxt, .Forward, actor, "", now⟩]⟩,
                 .moved nxt)

/-- Modelled from the spec: the routing engine command
`lead_routing.api.lead_transfer.send_back_to_department` (not shipped in the
sources).  Guarded by `LeadAlreadyCompleted`; fails with `NoPreviousStage`
from the first stage, otherwise moves the lead to the previous stage, sets
status Working and appends one Backward history entry. -/
def send_back_to_department (reg : Registry) (st : LeadState) (actor : String)
    (now : Nat) : Except RouteError (LeadState × String) :=
  if isCompleted reg st then .error .LeadAlreadyCompleted
  else
    match st.lead.current_department with
    | none => .error .LeadNotFound
    | some cur =>
      match lookupStage reg cur with
      | none => .error .UnknownStage
      | some _ =>
        match previous_stage reg cur with
        | none => .error .NoPreviousStage
        | some prev =>
          .ok (⟨{ st.lead with current_department := some prev,
                               department_status := .Working },
                st.history ++ [⟨st.lead.id, prev, .Backward, actor, "", now⟩]⟩,
               prev)

/-- Modelled from the spec: the routing engine command
`lead_routing.api.lead_transfer.reject_to_onboarding` (not shipped in the
sources).  Guarded by `LeadAlreadyCompleted`; resets the lead to the fixed
onboarding stage with status Working and appends one Reject history entry. -/
def reject_to_onboarding (reg : Registry) (onboarding : String)
    (st : LeadState) (actor : String) (now : Nat) :
    Except RouteError (LeadState × String) :=
  if isCompleted reg st then .error .LeadAlreadyCompleted
  else
    match st.lead.current_department with
    | none => .error .LeadNotFound
    | some _ =>
      .ok (⟨{ st.lead with current_department := some onboarding,
                           department_status := .Working },
            st.history ++ [⟨st.lead.id, onboarding, .Reject, actor, "", now⟩]⟩,
           onboarding)

/-- Modelled from the spec: the routing engine command
`lead_routing.api.lead_transfer.manager_override_transfer` (not shipped in
the sources).  Guarded by `LeadAlreadyCompleted`; fails with `InvalidTarget`
when the target stage is unregistered or equals the current department,
otherwise transfers the lead, sets status Working and appends one
ManagerOverride history entry carrying the notes. -/
def manager_override_transfer (reg : Registry) (st : LeadState)
    (actor : String) (target_stage : String) (notes : String) (now : Nat) :
    Except RouteError (LeadState × String) :=
  if isCompleted reg st then .error .LeadAlreadyCompleted
  else
    match st.lead.current_department with
    | none => .error .LeadNotFound
    | some cur =>
      if (lookupStage reg target_stage).isNone || target_stage == cur then
        .error .InvalidTarget
      else
        .ok (⟨{ st.lead with current_department := some target_stage,
                             department_status := .Working },
              st.history ++
                [⟨st.lead.id, target_stage, .ManagerOverride, actor, notes,
                  now⟩]⟩,
             target_stage)

/-- Modelled from the spec: `lead_routing.api.lead_transfer.get_transfer_targets`
(not shipped in the sources): the names of all registered stages other than
the current department. -/
def get_transfer_targets (reg : Registry) (current_department : String) :
    List String :=
  (reg.filter (fun s => s.name != current_department)).map (fun s => s.name)

/-- The authenticated caller of a query/command (spec §6: identity implicit
from the session; spec §4.3: admin/manager role gates the `user` argument). -/
structure Actor where
  user_id : String
  is_admin_or_manager : Bool
deriving DecidableEq, Repr

/-- Whether a lead's status is Done or Rejected (the global-view filter,
spec §4.3). -/
def isDoneOrRejected (ls : LeadState) : Bool :=
  decide (ls.lead.department_status = DeptStatus.Done) ||
    decide (ls.lead.department_status = DeptStatus.Rejected)

/-- One row of the global history view, annotated from the lead's most recent
history entry overall (spec §4.3). -/
structure GlobalRow where
  name : String
  lead_name : String
  current_department : Option String
  department_status : DeptStatus
  last_action : Option Action
  last_handled_by_name : Option String
  modified : Nat
deriving DecidableEq, Repr

/-- Annotates a lead for the global view from its most recent history entry
overall (the history is append-only and ordered by acted_at, so the most
recent entry is the last one). -/
def annotateGlobal (ls : LeadState) : GlobalRow :=
  { name := ls.lead.id
    lead_name := ls.lead.lead_name
    current_department := ls.lead.current_department
    department_status := ls.lead.department_status
    last_action := ls.history.getLast?.map (fun e => e.action)
    last_handled_by_name := ls.history.getLast?.map (fun e => e.actor_user_id)
    modified := ls.lead.modified }

/-- The global history view (spec §4.3). -/
structure GlobalView where
  leads : List GlobalRow
  done_count : Nat
  rejected_count : Nat
deriving DecidableEq, Repr

/-- Modelled from the spec: the global branch of
`lead_routing.api.lead_history.get_my_lead_history` (not shipped in the
sources): every lead with department_status in Done or Rejected, with the
Done and Rejected totals. -/
def globalView (db : List LeadState) : GlobalView :=
  { leads := (db.filter isDoneOrRejected).map annotateGlobal
    done_count :=
      db.countP (fun ls => decide (ls.lead.department_status = DeptStatus.Done))
    rejected_count :=
      db.countP
        (fun ls => decide (ls.lead.department_status = DeptStatus.Rejected)) }

/-- The history entries of a lead authored by user `u`, in order. -/
def userEntries (u : String) (h : List RoutingHistoryEntry) :
    List RoutingHistoryEntry :=
  h.filter (fun e => e.actor_user_id == u)

/-- Whether user `u` authored at least one history entry on the lead. -/
def hasUserEntry (u : String) (ls : LeadState) : Bool :=
  ls.history.any (fun e => e.actor_user_id == u)

/-- One row of the personal history view: the lead, annotated with the
user's most recent history entry on it (spec §4.3 `user_action`,
`action_department`, `action_at` are drawn from that entry). -/
structure PersonalRow where
  lead : Lead
  user_entry : Option RoutingHistoryEntry
deriving DecidableEq, Repr

/-- Annotates a lead for the personal view of user `u` with `u`'s most
recent history entry on it. -/
def annotatePersonal (u : String) (ls : LeadState) : PersonalRow :=
  ⟨ls.lead, (userEntries u ls.history).getLast?⟩

/-- The personal history view for one user (spec §4.3). -/
structure PersonalView where
  user : String
  leads : List PersonalRow
deriving DecidableEq, Repr

/-- Modelled from the spec: the personal branch of
`lead_routing.api.lead_history.get_my_lead_history` (not shipped in the
sources): the leads on which `u` authored at least one history entry, each
annotated with `u`'s most recent entry on it. -/
def personalView (db : List LeadState) (u : String) : PersonalView :=
  ⟨u, (db.filter (hasUserEntry u)).map (annotatePersonal u)⟩

/-- A history view, personal or global (spec §4.3 `HistoryView`). -/
inductive HistoryView where
  | globalv (v : GlobalView)
  | personalv (v : PersonalView)
deriving DecidableEq, Repr

/-- Modelled from the spec: `lead_routing.api.lead_history.get_my_lead_history`
(not shipped in the sources).  A provided `user` argument yields that user's
personal view when the caller is admin/manager or asks about themselves and
fails with `PermissionDenied` otherwise; with no `user` argument the caller
gets the global view. -/
def get_my_lead_history (db : List LeadState) (actor : Actor)
    (user : Option String) : Except RouteError HistoryView :=
  match user with
  | some u =>
    if actor.is_admin_or_manager || u == actor.user_id then
      .ok (.personalv (personalView db u))
    else
      .error .PermissionDenied
  | none => .ok (.globalv (globalView db))

/-! UI-side logic, embedded from the shipped JavaScript/Vue sources.
JavaScript string values that may be `undefined`/`null` are modelled as
`Option String`; JavaScript truthiness of such a value is `jsTruthy`. -/

/-- JavaScript truthiness of a possibly-missing string: `undefined`, `null`
and the empty string are falsy. -/
def jsTruthy (o : Option String) : Bool :=
  match o with
  | none => false
  | some s => s != ""

/-- JavaScript `a || b` on possibly-missing strings. -/
def jsOr (a b : Option String) : Option String :=
  if jsTruthy a then a else b

/-- JavaScript `a || d` where the fallback `d` is a plain string. -/
def jsOrStr (o : Option String) (d : String) : String :=
  if jsTruthy o then o.getD "" else d

/-- The CRM Lead form document fields read by the routing-buttons script
(form script, `frappe.ui.form.on("CRM Lead", refresh)`). -/
structure FormDoc where
  name : String
  current_department : Option String
  current_shift : Option String
  department_status : Option String
deriving DecidableEq, Repr

/-- A UI element produced by the form refresh handler: the department intro
banner (`frm.set_intro`) or a grouped custom button
(`frm.add_custom_button`). -/
inductive UIEl where
  | intro (html : String) (color : String)
  | button (label : String) (group : String)
deriving DecidableEq, Repr

/-- The department info banner HTML built by the refresh handler
(`dept_html` in the form script). -/
def dept_html (doc : FormDoc) : String :=
  "<div style=\"\n      padding: 8px 14px;\n      margin-bottom: 10px;\n      border-radius: 8px;\n      background: var(--subtle-accent);\n      border-left: 4px solid var(--primary-color);\n      font-size: 13px;\n    \">\n      <strong>🏢 Department:</strong> "
    ++ doc.current_department.getD ""
    ++ "\n      &nbsp;&nbsp;|&nbsp;&nbsp;\n      <strong>🕐 Shift:</strong> "
    ++ jsOrStr doc.current_shift "Not Set"
    ++ "\n      &nbsp;&nbsp;|&nbsp;&nbsp;\n      <strong>📋 Status:</strong> "
    ++ jsOrStr doc.department_status "—"
    ++ "\n    </div>"

/-- The form refresh handler of the routing-buttons script: the UI elements
it ends up adding to the form.  `terminalOf` stands for the
`frappe.db.get_value("Department Pipeline Stage", dept, "is_terminal")`
lookup.  An empty or missing `current_department` returns immediately with
no banner and no buttons; a lead with `department_status === "Done"` gets
the banner only (green when its department is terminal); otherwise the four
Routing buttons are added after the banner. -/
def refresh (terminalOf : String → Option Bool) (doc : FormDoc) : List UIEl :=
  if jsTruthy doc.current_department = false then []
  else
    let dept := doc.current_department.getD ""
    let html := dept_html doc
    if doc.department_status == some "Done" then
      match terminalOf dept with
      | some true =>
        [.intro (html.replace "📋 Status:" "✅ Status:") "green"]
      | _ => [.intro html "blue"]
    else
      [.intro html "blue",
       .button "Mark Done" "Routing",
       .button "Send Back" "Routing",
       .button "Reject to Onboarding" "Routing",
       .button "Transfer to Department" "Routing"]

/-- One row of the leads list handled by the Vue lead-history page
(`LeadHistory.vue`): the fields its filters and action cell read. -/
structure LeadRow where
  name : Option String
  lead_name : Option String
  department_status : Option String
  last_action : Option String
  user_action : Option String
deriving DecidableEq, Repr

/-- Whether the character list `needle` is a prefix of `hay`. -/
def isPrefixL : List Char → List Char → Bool
  | [], _ => true
  | _ :: _, [] => false
  | a :: as, b :: bs => a == b && isPrefixL as bs

/-- Whether the character list `needle` occurs inside `hay`
(JavaScript `String.prototype.includes`). -/
def containsSub : List Char → List Char → Bool
  | hay, needle =>
    isPrefixL needle hay ||
      match hay with
      | [] => false
      | _ :: t => containsSub t needle

/-- JavaScript `s.includes(q)` on strings. -/
def strIncludes (s q : String) : Bool :=
  containsSub s.data q.data

/-- The three filter inputs of the Vue lead-history page
(`filterStatus`, `filterAction`, `searchQuery` refs). -/
structure Filters where
  filterStatus : String
  filterAction : String
  searchQuery : String
deriving DecidableEq, Repr

/-- `clearFilters` of `LeadHistory.vue`: resets all three filters to the
empty string. -/
def clearFilters (_f : Filters) : Filters :=
  ⟨"", "", ""⟩

/-- The `filteredLeads` computed property of `LeadHistory.vue`: starting
from `leads`, successively applies the status filter, the action filter
(on `l.last_action || l.user_action`) and the case-insensitive search on
`l.name`/`l.lead_name`, each only when its input is non-empty. -/
def filteredLeads (f : Filters) (leads : List LeadRow) : List LeadRow :=
  let r1 :=
    if f.filterStatus != "" then
      leads.filter (fun l => l.department_status == some f.filterStatus)
    else leads
  let r2 :=
    if f.filterAction != "" then
      r1.filter (fun l => jsOr l.last_action l.user_action == some f.filterAction)
    else r1
  if f.searchQuery != "" then
    let q := f.searchQuery.toLower
    r2.filter (fun l =>
      (jsTruthy l.name && strIncludes (l.name.getD "").toLower q) ||
        (jsTruthy l.lead_name && strIncludes (l.lead_name.getD "").toLower q))
  else r2

/-- The property names a JavaScript object literal inherits from
`Object.prototype`: indexing `labels[key]` with one of these finds the
inherited property when the literal has no own property of that name. -/
def objectProtoProps : List String :=
  ["constructor", "hasOwnProperty", "isPrototypeOf", "propertyIsEnumerable",
   "toLocaleString", "toString", "valueOf", "__defineGetter__",
   "__defineSetter__", "__lookupGetter__", "__lookupSetter__", "__proto__"]

/-- A JavaScript value as far as the action label/class/theme lookups are
concerned: `undefined` (no own and no inherited property), a string (an own
entry of the object literal, or the string fallback of `||`), or the truthy
non-string value inherited from `Object.prototype` for the property named
`key` (a built-in function, or `Object.prototype` itself for
`__proto__`). -/
inductive JsValue where
  | undefined
  | str (s : String)
  | inheritedFn (key : String)
deriving DecidableEq, Repr

/-- JavaScript truthiness of a looked-up value: `undefined` and the empty
string are falsy; inherited `Object.prototype` members (functions, or
`Object.prototype` itself) are truthy. -/
def JsValue.truthy : JsValue → Bool
  | .undefined => false
  | .str s => s != ""
  | .inheritedFn _ => true

/-- JavaScript string coercion of a looked-up value, as used by template
literals: `__proto__` reads `Object.prototype` itself and coerces to
`[object Object]`; the other inherited members are built-in functions whose
string form is the NativeFunction text. -/
def JsValue.toStr : JsValue → String
  | .undefined => "undefined"
  | .str s => s
  | .inheritedFn k =>
    if k = "__proto__" then "[object Object]"
    else "function " ++ k ++ "() \x7b [native code] \x7d"

/-- JavaScript `a || b` on looked-up values. -/
def jsOrVal (a b : JsValue) : JsValue :=
  if a.truthy then a else b

/-- JavaScript property read `obj[key]` on an object literal whose own
entries are `own`: the own property when present, else the property
inherited from `Object.prototype`, else `undefined`. -/
def jsIndex (own : String → Option String) (key : String) : JsValue :=
  match own key with
  | some v => .str v
  | none => if key ∈ objectProtoProps then .inheritedFn key else .undefined

/-- The own entries of the `labels` / `actionLabels` object literal shared
by the page script's `get_action_badge` and the Vue page's
`getActionLabel`; indexing the literal goes through `jsIndex`. -/
def actionLabels (a : String) : Option String :=
  if a = "Forward" then some "Mark Done"
  else if a = "Backward" then some "Send Back"
  else if a = "Reject" then some "Reject to Onboarding"
  else if a = "Manager Override" then some "Manager Override"
  else if a = "Initial" then some "Initial Assignment"
  else none

/-- The own entries of the `classes` object literal of the page script's
`get_action_badge`; indexing the literal goes through `jsIndex`. -/
def actionClasses (a : String) : Option String :=
  if a = "Forward" then some "action-forward"
  else if a = "Backward" then some "action-backward"
  else if a = "Reject" then some "action-reject"
  else if a = "Manager Override" then some "action-override"
  else if a = "Initial" then some "action-initial"
  else none

/-- The own entries of the `themes` object literal of the Vue page's
`getActionTheme`; indexing the literal goes through `jsIndex`. -/
def actionThemes (a : String) : Option String :=
  if a = "Forward" then some "green"
  else if a = "Backward" then some "orange"
  else if a = "Reject" then some "red"
  else if a = "Manager Override" then some "blue"
  else if a = "Initial" then some "gray"
  else none

/-- `getActionLabel` of `LeadHistory.vue`: `actionLabels[action] || action`,
with the object indexing resolving through the prototype chain. -/
def getActionLabel (a : String) : JsValue :=
  jsOrVal (jsIndex actionLabels a) (.str a)

/-- `getActionTheme` of `LeadHistory.vue`: `themes[action] || 'gray'`,
with the object indexing resolving through the prototype chain. -/
def getActionTheme (a : String) : JsValue :=
  jsOrVal (jsIndex actionThemes a) (.str "gray")

/-- `get_action_badge` of the lead-history page script: the em dash
placeholder for a falsy action, otherwise a badge span whose class and
label come from `classes[action] || 'action-initial'` and
`labels[action] || action`, string-coerced by the template literal. -/
def get_action_badge (action : Option String) : String :=
  if jsTruthy action = false then "—"
  else
    let a := action.getD ""
    let label := jsOrVal (jsIndex actionLabels a) (.str a)
    let cls := jsOrVal (jsIndex actionClasses a) (.str "action-initial")
    "<span class=\"action-badge " ++ cls.toStr ++ "\">" ++ label.toStr
      ++ "</span>"

/-- `getLeadAction` of `LeadHistory.vue`:
`lead.last_action || lead.user_action || null`. -/
def getLeadAction (l : LeadRow) : Option String :=
  jsOr (jsOr l.last_action l.user_action) none

/-- The action cell of the Vue table: a badge with `getActionLabel` and
`getActionTheme` when `getLeadAction` is truthy, the em dash placeholder
otherwise. -/
def renderActionCell (l : LeadRow) : String :=
  match getLeadAction l with
  | some a =>
    "<Badge label=\"" ++ (getActionLabel a).toStr ++ "\" theme=\""
      ++ (getActionTheme a).toStr ++ "\"/>"
  | none => "—"

/-! Helper lemmas about the registry order selectors. -/

theorem minByOrder_eq_none {l : List PipelineStage}
    (h : minByOrder l = none) : l = [] := by
  cases l with
  | nil => rfl
  | cons a rest =>
    rw [minByOrder] at h
    cases hre : minByOrder rest <;> rw [hre] at h <;> dsimp only at h
    · simp at h
    · split at h <;> simp at h

theorem minByOrder_mem_le : ∀ {l : List PipelineStage} {t : PipelineStage},
    minByOrder l = some t →
    t ∈ l ∧ ∀ r ∈ l, t.sequence_order ≤ r.sequence_order
  | [], _, h => by simp [minByOrder] at h
  | a :: rest, t, h => by
    rw [minByOrder] at h
    cases hre : minByOrder rest with
    | none =>
      rw [hre] at h
      dsimp only at h
      have hrest := minByOrder_eq_none hre
      subst hrest
      cases h
      simp
    | some b =>
      rw [hre] at h
      dsimp only at h
      obtain ⟨hb, hmin⟩ := minByOrder_mem_le hre
      by_cases hab : a.sequence_order ≤ b.sequence_order
      · rw [if_pos hab] at h
        cases h
        refine ⟨List.mem_cons_self _ _, ?_⟩
        intro r hr
        rcases List.mem_cons.mp hr with h | h
        · subst h; exact le_refl _
        · exact le_trans hab (hmin r h)
      · rw [if_neg hab] at h
        cases h
        refine ⟨List.mem_cons_of_mem _ hb, ?_⟩
        intro r hr
        rcases List.mem_cons.mp hr with h | h
        · subst h; exact le_of_not_le hab
        · exact hmin r h

theorem maxByOrder_eq_none {l : List PipelineStage}
    (h : maxByOrder l = none) : l = [] := by
  cases l with
  | nil => rfl
  | cons a rest =>
    rw [maxByOrder] at h
    cases hre : maxByOrder rest <;> rw [hre] at h <;> dsimp only at h
    · simp at h
    · split at h <;> simp at h

theorem maxByOrder_mem_ge : ∀ {l : List PipelineStage} {t : PipelineStage},
    maxByOrder l = some t →
    t ∈ l ∧ ∀ r ∈ l, r.sequence_order ≤ t.sequence_order
  | [], _, h => by simp [maxByOrder] at h
  | a :: rest, t, h => by
    rw [maxByOrder] at h
    cases hre : maxByOrder rest with
    | none =>
      rw [hre] at h
      dsimp only at h
      have hrest := maxByOrder_eq_none hre
      subst hrest
      cases h
      simp
    | some b =>
      rw [hre] at h
      dsimp only at h
      obtain ⟨hb, hmax⟩ := maxByOrder_mem_ge hre
      by_cases hba : b.sequence_order ≤ a.sequence_order
      · rw [if_pos hba] at h
        cases h
        refine ⟨List.mem_cons_self _ _, ?_⟩
        intro r hr
        rcases List.mem_cons.mp hr with h | h
        · subst h; exact le_refl _
        · exact le_trans (hmax r h) hba
      · rw [if_neg hba] at h
        cases h
        refine ⟨List.mem_cons_of_mem _ hb, ?_⟩
        intro r hr
        rcases List.mem_cons.mp hr with h | h
        · subst h; exact le_of_not_le hba
        · exact hmax r h

/-! Concrete fixtures used by witnesses and counterexamples.  `specReg` is
the scenario registry of spec §8: Onboarding(0), Verification(1),
Compliance(2, terminal). -/

/-- The spec §8 scenario registry. -/
def specReg : Registry :=
  [⟨"Onboarding", 0, false⟩, ⟨"Verification", 1, false⟩,
   ⟨"Compliance", 2, true⟩]

/-- Lead X of the spec §8 scenario: at Verification, Working. -/
def stX : LeadState :=
  ⟨⟨"LX", "X", some "Verification", .Working, 0⟩, []⟩

/-- A lead that has finished its lifecycle: at the terminal Compliance
stage with status Done. -/
def stCompleted : LeadState :=
  ⟨⟨"LC", "C", some "Compliance", .Done, 0⟩, []⟩

/-- A registry whose only stage is non-terminal (and therefore last). -/
def cexReg1 : Registry := [⟨"A", 0, false⟩]

/-- A lead sitting on the sole non-terminal stage of `cexReg1`. -/
def cexLead1 : LeadState := ⟨⟨"L1", "X", some "A", .Working, 0⟩, []⟩

/-- A registry with a gap in sequence orders: A(0) then B(2). -/
def cexReg2 : Registry := [⟨"A", 0, false⟩, ⟨"B", 2, false⟩]

/-- A lead at stage A of `cexReg2`. -/
def cexLead2 : LeadState := ⟨⟨"L2", "Y", some "A", .Working, 0⟩, []⟩

/-- A registry whose first (minimum-order) stage is terminal. -/
def cexRegT : Registry := [⟨"A", 0, true⟩]

/-- A completed lead sitting on the first stage of `cexRegT`. -/
def cexDoneFirst : LeadState := ⟨⟨"L3", "Z", some "A", .Done, 0⟩, []⟩

/-! Claim theorems. -/

/-- C3: every one of the four routing commands fails with
`LeadAlreadyCompleted` when the lead is already on a terminal stage with
department_status Done; since each command returns the successor state only
in its `ok` branch, an error result leaves the lead state and history
untouched. -/
theorem routing_commands_completed_guard (reg : Registry) (st : LeadState)
    (actor target notes onboarding : String) (now : Nat)
    (h : isCompleted reg st = true) :
    mark_department_done reg st actor now = .error .LeadAlreadyCompleted ∧
    send_back_to_department reg st actor now =
      .error .LeadAlreadyCompleted ∧
    reject_to_onboarding reg onboarding st actor now =
      .error .LeadAlreadyCompleted ∧
    manager_override_transfer reg st actor target notes now =
      .error .LeadAlreadyCompleted := by
  refine ⟨?_, ?_, ?_, ?_⟩ <;>
    simp [mark_department_done, send_back_to_department,
      reject_to_onboarding, manager_override_transfer, h]

/-- Witness for C3 at a concrete completed lead. -/
theorem routing_commands_completed_guard_witness :
    isCompleted specReg stCompleted = true ∧
    mark_department_done specReg stCompleted "u" 1 =
      .error .LeadAlreadyCompleted :=
  ⟨by decide,
   (routing_commands_completed_guard specReg stCompleted "u" "Onboarding" ""
     "Onboarding" 1 (by decide)).1⟩

/-- C1 (amended): for a lead that is not already completed whose current
stage is registered, `mark_department_done` completes on a terminal stage
(sets status Done, does not move the lead, appends nothing), moves the lead
forward on a non-terminal stage that has a next stage (sets status Working
and appends exactly one Forward history entry), and fails with `NoNextStage`
on a non-terminal stage with no next stage. -/
theorem mark_department_done_spec (reg : Registry) (st : LeadState)
    (actor : String) (now : Nat) (cur : String) (s : PipelineStage)
    (hnc : isCompleted reg st = false)
    (hcur : st.lead.current_department = some cur)
    (hs : lookupStage reg cur = some s) :
    (s.is_terminal = true →
      mark_department_done reg st actor now =
        .ok ({ st with lead := { st.lead with department_status := .Done } },
             .completed)) ∧
    (s.is_terminal = false → next_stage reg cur = none →
      mark_department_done reg st actor now = .error .NoNextStage) ∧
    (∀ nxt, s.is_terminal = false → next_stage reg cur = some nxt →
      mark_department_done reg st actor now =
        .ok (⟨{ st.lead with current_department := some nxt,
                             department_status := .Working },
              st.history ++ [⟨st.lead.id, nxt, .Forward, actor, "", now⟩]⟩,
             .moved nxt)) := by
  refine ⟨?_, ?_, ?_⟩
  · intro ht
    simp [mark_department_done, hnc, hcur, hs, ht]
  · intro ht hn
    simp [mark_department_done, hnc, hcur, hs, ht, hn]
  · intro nxt ht hn
    simp [mark_department_done, hnc, hcur, hs, ht, hn]

/-- Witness for C1 on the spec §8 scenario: lead X at Verification moves to
Compliance with one Forward history entry. -/
theorem mark_department_done_spec_witness :
    mark_department_done specReg stX "carol" 5 =
      .ok (⟨⟨"LX", "X", some "Compliance", .Working, 0⟩,
            [⟨"LX", "Compliance", .Forward, "carol", "", 5⟩]⟩,
           .moved "Compliance") :=
  (mark_department_done_spec specReg stX "carol" 5 "Verification"
      ⟨"Verification", 1, false⟩ (by decide) rfl (by decide)).2.2
    "Compliance" rfl (by decide)

/-- Counterexample for C1 as stated: on a registry whose only stage is
non-terminal, a non-completed lead on that stage neither completes nor
advances — `mark_department_done` fails with `NoNextStage`. -/
theorem mark_department_done_totality_cex :
    isCompleted cexReg1 cexLead1 = false ∧
    mark_department_done cexReg1 cexLead1 "u" 1 = .error .NoNextStage :=
  ⟨rfl, rfl⟩

/-- C2 (amended): a successful forward move from a non-terminal stage with
sequence_order k lands on a registered stage whose sequence_order is the
smallest one strictly greater than k (which is k+1 exactly when the orders
are consecutive). -/
theorem forward_moves_to_least_higher (reg : Registry) (st : LeadState)
    (actor : String) (now : Nat) (cur : String) (s : PipelineStage)
    (nxt : String)
    (hnc : isCompleted reg st = false)
    (hcur : st.lead.current_department = some cur)
    (hs : lookupStage reg cur = some s)
    (hterm : s.is_terminal = false)
    (hnxt : next_stage reg cur = some nxt) :
    (∃ st', mark_department_done reg st actor now = .ok (st', .moved nxt) ∧
      st'.lead.current_department = some nxt) ∧
    ∃ t ∈ reg, t.name = nxt ∧ s.sequence_order < t.sequence_order ∧
      ∀ r ∈ reg, s.sequence_order < r.sequence_order →
        t.sequence_order ≤ r.sequence_order := by
  constructor
  · refine ⟨⟨{ st.lead with current_department := some nxt,
                            department_status := .Working },
             st.history ++ [⟨st.lead.id, nxt, .Forward, actor, "", now⟩]⟩,
            ?_, rfl⟩
    simp [mark_department_done, hnc, hcur, hs, hterm, hnxt]
  · rw [next_stage, hs] at hnxt
    dsimp only at hnxt
    rw [if_neg (by simp [hterm])] at hnxt
    rcases Option.map_eq_some'.mp hnxt with ⟨t, hmin, hname⟩
    obtain ⟨hmem, hle⟩ := minByOrder_mem_le hmin
    rw [stagesAbove, List.mem_filter] at hmem
    refine ⟨t, hmem.1, hname, of_decide_eq_true hmem.2, ?_⟩
    intro r hr hlt
    exact hle r (List.mem_filter.mpr ⟨hr, decide_eq_true hlt⟩)

/-- Witness for C2 on the spec §8 scenario: the move from Verification
lands on Compliance, and Compliance has the least sequence_order above 1. -/
theorem forward_moves_to_least_higher_witness :
    ∃ st', mark_department_done specReg stX "carol" 5 =
      .ok (st', .moved "Compliance") ∧
      st'.lead.current_department = some "Compliance" :=
  (forward_moves_to_least_higher specReg stX "carol" 5 "Verification"
    ⟨"Verification", 1, false⟩ "Compliance" (by decide) rfl (by decide) rfl
    (by decide)).1

/-- Counterexample for C2 as stated: on registry A(0), B(2) a successful
`mark_department_done` from A (sequence_order 0) lands on B, whose
sequence_order is 2, not 0 + 1. -/
theorem forward_k_plus_one_cex :
    mark_department_done cexReg2 cexLead2 "u" 1 =
      .ok (⟨⟨"L2", "Y", some "B", .Working, 0⟩,
            [⟨"L2", "B", .Forward, "u", "", 1⟩]⟩, .moved "B") ∧
    lookupStage cexReg2 "A" = some ⟨"A", 0, false⟩ ∧
    lookupStage cexReg2 "B" = some ⟨"B", 2, false⟩ ∧
    (2 : Nat) ≠ 0 + 1 :=
  ⟨rfl, rfl, rfl, by simp⟩

/-- C4 (amended): for a lead that is not already completed whose current
stage is registered, `send_back_to_department` fails with `NoPreviousStage`
when the current stage has the minimum sequence_order (leaving state and
history unchanged, since only the `ok` branch produces a successor state);
when some registered stage has a smaller sequence_order a previous stage
exists, and the command then moves the lead to the previous stage with
status Working and appends one Backward history entry, returning it. -/
theorem send_back_spec (reg : Registry) (st : LeadState)
    (actor : String) (now : Nat) (cur : String) (s : PipelineStage)
    (hnc : isCompleted reg st = false)
    (hcur : st.lead.current_department = some cur)
    (hs : lookupStage reg cur = some s) :
    ((∀ t ∈ reg, s.sequence_order ≤ t.sequence_order) →
      send_back_to_department reg st actor now = .error .NoPreviousStage) ∧
    ((∃ t ∈ reg, t.sequence_order < s.sequence_order) →
      ∃ prev, previous_stage reg cur = some prev) ∧
    (∀ prev, previous_stage reg cur = some prev →
      send_back_to_department reg st actor now =
        .ok (⟨{ st.lead with current_department := some prev,
                             department_status := .Working },
              st.history ++ [⟨st.lead.id, prev, .Backward, actor, "", now⟩]⟩,
             prev)) := by
  refine ⟨?_, ?_, ?_⟩
  · intro hfirst
    have hempty : stagesBelow reg s.sequence_order = [] := by
      rw [stagesBelow, List.filter_eq_nil_iff]
      intro a ha
      simp only [decide_eq_true_eq]
      exact not_lt.mpr (hfirst a ha)
    have hprev : previous_stage reg cur = none := by
      rw [previous_stage, hs]
      dsimp only
      rw [hempty]
      rfl
    simp [send_back_to_department, hnc, hcur, hs, hprev]
  · rintro ⟨t, ht, hlt⟩
    have hne : stagesBelow reg s.sequence_order ≠ [] := by
      intro hnil
      have := List.filter_eq_nil_iff.mp hnil t ht
      simp only [decide_eq_true_eq] at this
      exact this hlt
    rcases hmax : maxByOrder (stagesBelow reg s.sequence_order) with _ | b
    · exact absurd (maxByOrder_eq_none hmax) hne
    · refine ⟨b.name, ?_⟩
      rw [previous_stage, hs]
      dsimp only
      rw [hmax]
      rfl
  · intro prev hprev
    simp [send_back_to_department, hnc, hcur, hs, hprev]

/-- Witness for C4 on the spec §8 scenario: lead X at Verification is sent
back to Onboarding with one Backward history entry. -/
theorem send_back_spec_witness :
    send_back_to_department specReg stX "dave" 7 =
      .ok (⟨⟨"LX", "X", some "Onboarding", .Working, 0⟩,
            [⟨"LX", "Onboarding", .Backward, "dave", "", 7⟩]⟩,
           "Onboarding") :=
  (send_back_spec specReg stX "dave" 7 "Verification"
    ⟨"Verification", 1, false⟩ (by decide) rfl (by decide)).2.2
    "Onboarding" (by decide)

/-- Counterexample for C4 as stated: on a registry whose single (hence
first, minimum-order) stage is terminal, a lead on it with status Done is
already completed, so `send_back_to_department` fails with
`LeadAlreadyCompleted`, not `NoPreviousStage`. -/
theorem send_back_first_stage_cex :
    lookupStage cexRegT "A" = some ⟨"A", 0, true⟩ ∧
    stagesBelow cexRegT 0 = [] ∧
    cexDoneFirst.lead.current_department = some "A" ∧
    send_back_to_department cexRegT cexDoneFirst "u" 1 =
      .error .LeadAlreadyCompleted ∧
    (Except.error .LeadAlreadyCompleted :
        Except RouteError (LeadState × String)) ≠
      .error .NoPreviousStage :=
  ⟨rfl, rfl, rfl, rfl, by simp⟩

/-- C5 (amended): for a lead that is not already completed,
`manager_override_transfer` fails with `InvalidTarget` whenever the target
stage is not registered or equals the lead's current department (leaving
state and history unchanged, since only the `ok` branch produces a
successor state); and `get_transfer_targets` returns exactly the names of
the registered stages other than the current department. -/
theorem override_invalid_target_spec (reg : Registry) (st : LeadState)
    (actor target notes : String) (now : Nat) (cur : String)
    (hnc : isCompleted reg st = false)
    (hcur : st.lead.current_department = some cur) :
    ((lookupStage reg target = none ∨ target = cur) →
      manager_override_transfer reg st actor target notes now =
        .error .InvalidTarget) ∧
    (∀ n, n ∈ get_transfer_targets reg cur ↔
      ((∃ t ∈ reg, t.name = n) ∧ n ≠ cur)) := by
  constructor
  · intro hbad
    have hcond : ((lookupStage reg target).isNone || target == cur) = true := by
      rcases hbad with h | h
      · simp [h]
      · simp [h]
    simp only [manager_override_transfer, hnc, Bool.false_eq_true,
      if_false, hcur, hcond, if_true]
  · intro n
    simp only [get_transfer_targets, List.mem_map, List.mem_filter,
      bne_iff_ne, ne_eq]
    constructor
    · rintro ⟨t, ⟨ht, hne⟩, rfl⟩
      exact ⟨⟨t, ht, rfl⟩, hne⟩
    · rintro ⟨⟨t, ht, rfl⟩, hne⟩
      exact ⟨t, ⟨ht, hne⟩, rfl⟩

/-- Witness for C5 on the spec §8 scenario: transferring lead X to its own
current department Verification fails with `InvalidTarget`, and the
transfer targets offered from Verification are Onboarding and Compliance. -/
theorem override_invalid_target_spec_witness :
    manager_override_transfer specReg stX "erin" "Verification" "" 9 =
      .error .InvalidTarget ∧
    get_transfer_targets specReg "Verification" =
      ["Onboarding", "Compliance"] :=
  ⟨(override_invalid_target_spec specReg stX "erin" "Verification" "" 9
      "Verification" (by decide) rfl).1 (Or.inr rfl),
   rfl⟩

/-- Counterexample for C5 as stated: a lead already completed on stage A
fails `manager_override_transfer` to its own current stage A with
`LeadAlreadyCompleted`, not `InvalidTarget`. -/
theorem override_completed_cex :
    cexDoneFirst.lead.current_department = some "A" ∧
    isCompleted cexRegT cexDoneFirst = true ∧
    manager_override_transfer cexRegT cexDoneFirst "u" "A" "" 1 =
      .error .LeadAlreadyCompleted ∧
    (Except.error .LeadAlreadyCompleted :
        Except RouteError (LeadState × String)) ≠
      .error .InvalidTarget :=
  ⟨rfl, rfl, rfl, by simp⟩

/-! Helper lemmas for the history views. -/

theorem countP_annotate_status (db : List LeadState) (d : DeptStatus)
    (hd : d = DeptStatus.Done ∨ d = DeptStatus.Rejected) :
    ((db.filter isDoneOrRejected).map annotateGlobal).countP
      (fun r => decide (r.department_status = d)) =
    db.countP (fun ls => decide (ls.lead.department_status = d)) := by
  rw [List.countP_map]
  have h1 : ((fun r : GlobalRow => decide (r.department_status = d)) ∘
      annotateGlobal) =
      (fun ls : LeadState => decide (ls.lead.department_status = d)) := rfl
  rw [h1, List.countP_filter]
  congr 1
  funext ls
  cases h : ls.lead.department_status <;> rcases hd with rfl | rfl <;>
    simp [isDoneOrRejected, h]

theorem done_rejected_counts_le (l : List GlobalRow) :
    l.countP (fun r => decide (r.department_status = DeptStatus.Done)) +
      l.countP (fun r => decide (r.department_status = DeptStatus.Rejected)) ≤
      l.length := by
  induction l with
  | nil => simp
  | cons a t ih =>
    rw [List.countP_cons, List.countP_cons, List.length_cons]
    cases h : a.department_status <;> simp [h] <;> omega

/-- A lead with status Working, used in the history-view witnesses. -/
def stW : LeadState := ⟨⟨"LW", "W", some "Onboarding", .Working, 0⟩, []⟩

/-- A rejected lead with one history entry by bob, used in the
history-view witnesses. -/
def stRej : LeadState :=
  ⟨⟨"LR", "R", some "Onboarding", .Rejected, 0⟩,
   [⟨"LR", "Onboarding", .Reject, "bob", "", 3⟩]⟩

/-- A small concrete lead database for the history-view witnesses. -/
def wDb : List LeadState := [stW, stCompleted, stRej]

/-- A non-privileged concrete caller for the history witnesses. -/
def wActor : Actor := ⟨"alice", false⟩

/-- C6: the global view lists exactly the leads with status Done or
Rejected; `done_count` (resp. `rejected_count`) equals the number of listed
leads whose status is Done (resp. Rejected); and their sum is at most the
number of listed leads. -/
theorem global_view_spec (db : List LeadState) :
    (∀ row ∈ (globalView db).leads,
      row.department_status = DeptStatus.Done ∨
        row.department_status = DeptStatus.Rejected) ∧
    (∀ ls ∈ db,
      (ls.lead.department_status = DeptStatus.Done ∨
        ls.lead.department_status = DeptStatus.Rejected) →
      annotateGlobal ls ∈ (globalView db).leads) ∧
    (globalView db).done_count =
      (globalView db).leads.countP
        (fun r => decide (r.department_status = DeptStatus.Done)) ∧
    (globalView db).rejected_count =
      (globalView db).leads.countP
        (fun r => decide (r.department_status = DeptStatus.Rejected)) ∧
    (globalView db).done_count + (globalView db).rejected_count ≤
      (globalView db).leads.length := by
  refine ⟨?_, ?_, ?_, ?_, ?_⟩
  · intro row hrow
    simp only [globalView, List.mem_map] at hrow
    obtain ⟨ls, hmem, rfl⟩ := hrow
    have hdr := (List.mem_filter.mp hmem).2
    simp only [isDoneOrRejected, Bool.or_eq_true, decide_eq_true_eq] at hdr
    simpa [annotateGlobal] using hdr
  · intro ls hls hstat
    simp only [globalView, List.mem_map]
    refine ⟨ls, List.mem_filter.mpr ⟨hls, ?_⟩, rfl⟩
    rcases hstat with h | h <;> simp [isDoneOrRejected, h]
  · simp only [globalView]
    exact (countP_annotate_status db .Done (Or.inl rfl)).symm
  · simp only [globalView]
    exact (countP_annotate_status db .Rejected (Or.inr rfl)).symm
  · simp only [globalView]
    rw [← countP_annotate_status db .Done (Or.inl rfl),
      ← countP_annotate_status db .Rejected (Or.inr rfl)]
    exact done_rejected_counts_le _

/-- Witness for C6 on a concrete database with one Working, one Done and
one Rejected lead. -/
theorem global_view_spec_witness :
    annotateGlobal stRej ∈ (globalView wDb).leads ∧
    (globalView wDb).done_count + (globalView wDb).rejected_count ≤
      (globalView wDb).leads.length :=
  ⟨(global_view_spec wDb).2.1 stRej (by simp [wDb]) (Or.inr rfl),
   (global_view_spec wDb).2.2.2.2⟩

/-- C7: a non-privileged caller requesting another user's history fails
with `PermissionDenied`; and every row of user U's personal view comes from
a lead on which U authored at least one history entry and is annotated with
U's last (most recent) entry on that lead — never another user's entry. -/
theorem history_permission_spec (db : List LeadState) (actor : Actor)
    (u : String) :
    (actor.is_admin_or_manager = false → u ≠ actor.user_id →
      get_my_lead_history db actor (some u) = .error .PermissionDenied) ∧
    (∀ row ∈ (personalView db u).leads,
      ∃ ls ∈ db, row.lead = ls.lead ∧
        ∃ e pre, row.user_entry = some e ∧ e.actor_user_id = u ∧
          userEntries u ls.history = pre ++ [e]) := by
  constructor
  · intro h1 h2
    simp [get_my_lead_history, h1, h2]
  · intro row hrow
    simp only [personalView, List.mem_map] at hrow
    obtain ⟨ls, hmem, rfl⟩ := hrow
    obtain ⟨hdb, hhas⟩ := List.mem_filter.mp hmem
    have hne : userEntries u ls.history ≠ [] := by
      simp only [hasUserEntry, List.any_eq_true] at hhas
      obtain ⟨e, he, hu⟩ := hhas
      intro hnil
      have hm : e ∈ userEntries u ls.history := List.mem_filter.mpr ⟨he, hu⟩
      rw [hnil] at hm
      exact absurd hm (List.not_mem_nil e)
    rcases hlast : (userEntries u ls.history).getLast? with _ | e
    · rw [List.getLast?_eq_none_iff] at hlast
      exact absurd hlast hne
    · obtain ⟨pre, hpre⟩ := List.getLast?_eq_some_iff.mp hlast
      have heu : e.actor_user_id = u := by
        have hemem : e ∈ userEntries u ls.history := by rw [hpre]; simp
        have := (List.mem_filter.mp hemem).2
        simpa using this
      exact ⟨ls, hdb, rfl, e, pre, hlast, heu, hpre⟩

/-- Witness for C7: the non-privileged caller alice asking for bob's
history is denied. -/
theorem history_permission_spec_witness :
    get_my_lead_history wDb wActor (some "bob") = .error .PermissionDenied :=
  (history_permission_spec wDb wActor "bob").1 rfl (by decide)

/-- A stand-in for the `is_terminal` database lookup that finds nothing. -/
def noLookup : String → Option Bool := fun _ => none

/-- A form document whose lead has never been assigned a department. -/
def docNoDept : FormDoc := ⟨"L9", none, none, none⟩

/-- C8: when the form's `current_department` is null or empty, the refresh
handler returns immediately: no banner and no Routing buttons are added, so
no routing command can be initiated from the form. -/
theorem refresh_requires_department (terminalOf : String → Option Bool)
    (doc : FormDoc) (h : jsTruthy doc.current_department = false) :
    refresh terminalOf doc = [] := by
  simp [refresh, h]

/-- Witness for C8 on a document with no department assigned. -/
theorem refresh_requires_department_witness :
    jsTruthy docNoDept.current_department = false ∧
    refresh noLookup docNoDept = [] :=
  ⟨rfl, refresh_requires_department noLookup docNoDept rfl⟩

/-- C9: with all three filters empty, `filteredLeads` is the identity on
the leads list; for every combination of filter values it returns a sublist
of the input (so each stage only removes elements, never reorders,
duplicates or adds); and after `clearFilters` the full list is restored. -/
theorem filteredLeads_identity_sublist :
    (∀ leads : List LeadRow, filteredLeads ⟨"", "", ""⟩ leads = leads) ∧
    (∀ (f : Filters) (leads : List LeadRow),
      (filteredLeads f leads).Sublist leads) ∧
    (∀ (f : Filters) (leads : List LeadRow),
      filteredLeads (clearFilters f) leads = leads) := by
  have hid : ∀ leads : List LeadRow,
      filteredLeads ⟨"", "", ""⟩ leads = leads := by
    intro leads
    simp [filteredLeads]
  have step : ∀ (c : Bool) (p : LeadRow → Bool) (l : List LeadRow),
      List.Sublist (if c then l.filter p else l) l := by
    intro c p l
    cases c
    · simp
    · simp [List.filter_sublist l]
  refine ⟨hid, ?_, ?_⟩
  · intro f leads
    simp only [filteredLeads]
    exact (step _ _ _).trans ((step _ _ _).trans (step _ _ _))
  · intro f leads
    exact hid leads

/-- C10 (amended): the action badge/label/theme mappings are total with a
fallback that excludes the prototype chain.  The five known actions map to
their fixed labels, CSS classes and themes; any other non-empty action
string that is not an `Object.prototype` property name is rendered as its
own text with the default action-initial class and gray theme; an
`Object.prototype` property name resolves through the prototype chain to
the truthy inherited value, which is what gets rendered instead of the
action's own text; a null/empty action yields the em dash placeholder,
both in `get_action_badge` and in the Vue action cell.  All three
functions are total Lean functions, so no input is unhandled. -/
theorem action_rendering_spec :
    (∀ a : Option String, jsTruthy a = false → get_action_badge a = "—") ∧
    (∀ a : String, a ≠ "" → a ≠ "Forward" → a ≠ "Backward" → a ≠ "Reject" →
      a ≠ "Manager Override" → a ≠ "Initial" → a ∉ objectProtoProps →
      get_action_badge (some a) =
        "<span class=\"action-badge action-initial\">" ++ a ++ "</span>" ∧
      getActionLabel a = .str a ∧ getActionTheme a = .str "gray") ∧
    (∀ a ∈ objectProtoProps,
      getActionLabel a = .inheritedFn a ∧
      getActionTheme a = .inheritedFn a ∧
      (getActionLabel a).truthy = true) ∧
    (get_action_badge (some "Forward") =
        "<span class=\"action-badge action-forward\">Mark Done</span>" ∧
      getActionLabel "Forward" = .str "Mark Done" ∧
      getActionTheme "Forward" = .str "green") ∧
    (get_action_badge (some "Backward") =
        "<span class=\"action-badge action-backward\">Send Back</span>" ∧
      getActionLabel "Backward" = .str "Send Back" ∧
      getActionTheme "Backward" = .str "orange") ∧
    (get_action_badge (some "Reject") =
        "<span class=\"action-badge action-reject\">Reject to Onboarding</span>" ∧
      getActionLabel "Reject" = .str "Reject to Onboarding" ∧
      getActionTheme "Reject" = .str "red") ∧
    (get_action_badge (some "Manager Override") =
        "<span class=\"action-badge action-override\">Manager Override</span>" ∧
      getActionLabel "Manager Override" = .str "Manager Override" ∧
      getActionTheme "Manager Override" = .str "blue") ∧
    (get_action_badge (some "Initial") =
        "<span class=\"action-badge action-initial\">Initial Assignment</span>" ∧
      getActionLabel "Initial" = .str "Initial Assignment" ∧
      getActionTheme "Initial" = .str "gray") ∧
    (∀ l : LeadRow, getLeadAction l = none → renderActionCell l = "—") := by
  refine ⟨?_, ?_, ?_, ⟨rfl, rfl, rfl⟩, ⟨rfl, rfl, rfl⟩, ⟨rfl, rfl, rfl⟩,
    ⟨rfl, rfl, rfl⟩, ⟨rfl, rfl, rfl⟩, ?_⟩
  · intro a h
    simp [get_action_badge, h]
  · intro a h0 h1 h2 h3 h4 h5 hp
    refine ⟨?_, ?_, ?_⟩ <;>
      simp [get_action_badge, getActionLabel, getActionTheme, jsIndex,
        jsOrVal, JsValue.truthy, JsValue.toStr, actionLabels, actionClasses,
        actionThemes, jsTruthy, h0, h1, h2, h3, h4, h5, hp]
  · intro a ha
    simp only [objectProtoProps, List.mem_cons, List.not_mem_nil,
      or_false] at ha
    rcases ha with rfl | rfl | rfl | rfl | rfl | rfl | rfl | rfl | rfl |
      rfl | rfl | rfl <;> exact ⟨rfl, rfl, rfl⟩
  · intro l h
    simp [renderActionCell, h]

/-- Witness for C10 at the unknown non-prototype action string Escalate. -/
theorem action_rendering_spec_witness :
    get_action_badge (some "Escalate") =
      "<span class=\"action-badge action-initial\">Escalate</span>" ∧
    getActionLabel "Escalate" = .str "Escalate" ∧
    getActionTheme "Escalate" = .str "gray" :=
  action_rendering_spec.2.1 "Escalate" (by decide) (by decide) (by decide)
    (by decide) (by decide) (by decide) (by decide)

/-- Counterexample for C10 as stated: toString is a non-empty action string
other than the five known actions, yet the object lookup resolves through
`Object.prototype` to the inherited toString function, which is truthy, so
the label and theme are the inherited function — not the action's own text
with the gray default — and the badge renders the function's string form. -/
theorem action_proto_lookup_cex :
    actionLabels "toString" = none ∧
    getActionLabel "toString" = .inheritedFn "toString" ∧
    getActionLabel "toString" ≠ .str "toString" ∧
    getActionTheme "toString" = .inheritedFn "toString" ∧
    getActionTheme "toString" ≠ .str "gray" ∧
    get_action_badge (some "toString") ≠
      "<span class=\"action-badge action-initial\">toString</span>" :=
  ⟨rfl, rfl, by decide, rfl, by decide, by decide⟩

end LeadRouting
